import Mathlib

/-!
Verification of the GIS_AGENT farm-analysis pipeline.

This file gives a shallow embedding, in Lean, of the input-parsing,
validation, classification, aggregation and report-synthesis logic of
`src/gis_agent` (`services/analysis.py`, `utils/helpers.py`) and proves
the behavioural properties claimed of it.

Modelling conventions:
* Python floats are modelled as rationals (`ℚ`); every numeric literal
  appearing in the source (0.7, 23.5, …) is exactly representable.
* Python strings are `String` / `List Char`; the two regular expressions of
  `analysis.py` are modelled by a small backtracking matcher (`reRun`) whose
  result order reproduces Python `re` semantics (leftmost position, earlier
  alternative first, greedy repetition) restricted to the constructs those
  two patterns use.  Character classes are the ASCII readings of `\d`, `\s`,
  `\w`.
* Fallible Python code is embedded in `Option` / `Except String`: a raised
  exception is `Except.error msg`, a caught one is handled where the source
  handles it.
* External adapters (Earth Engine, the weather API) enter as record fields
  of `Adapters`: each call the aggregator makes is a field returning
  `Except String _`, matching the spec's interface contract that any adapter
  call may raise.
-/

namespace GisAgent

/-! ## Basic Python-string helpers -/

/-- Value of a list of decimal digit characters, most significant first. -/
def digitsVal (l : List Char) : Nat :=
  l.foldl (fun a c => a * 10 + (c.toNat - 48)) 0

/-- Lowering of an ASCII character list, modelling `str.lower()` on the
inputs this module receives. -/
def toLowerL (l : List Char) : List Char := l.map Char.toLower

/-- Substring containment, modelling Python's `needle in hay`. -/
def containsSub (hay pat : List Char) : Bool :=
  hay.tails.any (fun t => pat.isPrefixOf t)

/-- Strip of leading and trailing whitespace, modelling `str.strip()`. -/
def pyStrip (l : List Char) : List Char :=
  ((l.dropWhile Char.isWhitespace).reverse.dropWhile Char.isWhitespace).reverse

/-- Unsigned part of Python `float()` on the literal grammar reachable from
this module: decimal digits with an optional single decimal point.  (The
call sites only ever pass substrings matched by `\d+\.\d+`, possibly with a
sign handled in `pyFloat`; exponents, `inf`/`nan` and surrounding
whitespace never reach `float()` here.) -/
def pyFloatCore (l : List Char) : Option ℚ :=
  let ip := l.takeWhile Char.isDigit
  let rest := l.dropWhile Char.isDigit
  if rest = [] then
    if ip = [] then none else some ((digitsVal ip : ℚ))
  else if rest.head? = some '.' then
    let fp := rest.tail
    if fp.all Char.isDigit && !(decide (ip = []) && decide (fp = [])) then
      some ((digitsVal ip : ℚ) + (digitsVal fp : ℚ) / ((10 : ℚ) ^ fp.length))
    else none
  else none

/-- Model of Python `float(s)` on this module's inputs. -/
def pyFloat (s : String) : Option ℚ :=
  match s.toList with
  | [] => none
  | c :: t =>
    if c = '-' then (pyFloatCore t).map (fun q => -q)
    else if c = '+' then pyFloatCore t
    else pyFloatCore (c :: t)

/-! ## A miniature regex engine

Just enough of Python `re` for the two patterns of `analysis.py`:

* `r'(\d+\.\d+)\s*,\s*(\d+\.\d+)'` (coordinate extraction, `re.findall`), and
* `r'(?:from|between)\s*(\d{4}-\d{2}-\d{2}|\d{1,2}\s+\w+)\s*(?:to|and)\s*(\d{4}-\d{2}-\d{2}|\d{1,2}\s+\w+)'`
  (date range, `re.search` with `re.IGNORECASE`).

`reRun r s` lists every way `r` can match a prefix of `s`, as pairs of
(remaining input, captured groups), in Python's backtracking preference
order; the head of the list is the match Python commits to. -/

inductive RE where
  | cls (p : Char → Bool)
  | lit (l : List Char)
  | seq (a b : RE)
  | alt (a b : RE)
  | rep (p : Char → Bool) (lo : Nat) (hi : Option Nat)
  | grp (a : RE)

/-- Length of the maximal prefix of `s` whose characters satisfy `p`. -/
def charRun (p : Char → Bool) : List Char → Nat
  | [] => 0
  | c :: cs => if p c then charRun p cs + 1 else 0

/-- Candidate repetition counts for a greedy bounded repetition of a
character class, longest first: `[min hi m, …, lo]` where `m` is the length
of the maximal run present. -/
def repCounts (lo : Nat) (hi : Option Nat) (m : Nat) : List Nat :=
  let top := match hi with
    | some h => min h m
    | none => m
  (List.range (top + 1)).reverse.filter (fun k => lo ≤ k)

/-- Case-insensitive literal match (the source's literals occur under
`re.IGNORECASE`; stored pattern is lowercase). Returns remaining input. -/
def matchLit : List Char → List Char → Option (List Char)
  | [], s => some s
  | _ :: _, [] => none
  | l :: ls, c :: cs => if c.toLower = l then matchLit ls cs else none

/-- All prefix matches of `r` against `s` in backtracking preference order;
each result is (remaining input, captures in group order). -/
def reRun (r : RE) (s : List Char) : List (List Char × List (List Char)) :=
  match r with
  | .cls p =>
    match s with
    | [] => []
    | c :: cs => if p c then [(cs, [])] else []
  | .lit l =>
    match matchLit l s with
    | some rest => [(rest, [])]
    | none => []
  | .seq a b =>
    (reRun a s).flatMap (fun x => (reRun b x.1).map (fun y => (y.1, x.2 ++ y.2)))
  | .alt a b => reRun a s ++ reRun b s
  | .rep p lo hi => (repCounts lo hi (charRun p s)).map (fun k => (s.drop k, []))
  | .grp a =>
    (reRun a s).map (fun x => (x.1, s.take (s.length - x.1.length) :: x.2))

/-- Leftmost match, modelling `re.search`: try each start position in turn
and commit to the first (preference-ordered) match found there. -/
def reSearch (r : RE) : List Char → Option (List Char × List (List Char))
  | [] => (reRun r []).head?
  | c :: cs =>
    match (reRun r (c :: cs)).head? with
    | some res => some res
    | none => reSearch r cs

/-- Scanner body for `re.findall`: repeated `reSearch`, resuming after each
match (advancing one character past a zero-width match, as Python's scanner
does; the coordinate pattern never matches the empty string). -/
def reFindAllAux (r : RE) : Nat → List Char → List (List (List Char))
  | 0, _ => []
  | Nat.succ fuel, s =>
    match reSearch r s with
    | none => []
    | some (rest, caps) =>
      if rest.length < s.length then caps :: reFindAllAux r fuel rest
      else
        caps ::
          (match s with
           | [] => []
           | _ :: cs => reFindAllAux r fuel cs)

/-- Model of `re.findall`, returning each match's captured groups in order
of appearance. -/
def reFindAll (r : RE) (s : List Char) : List (List (List Char)) :=
  reFindAllAux r (s.length + 1) s

/-! ## The two patterns of `analysis.py` -/

def isDigitC (c : Char) : Bool := c.isDigit

def isSpaceC (c : Char) : Bool := c.isWhitespace

def isWordC (c : Char) : Bool := c.isAlphanum || c = '_'

/-- The sub-pattern `\d+\.\d+`. -/
def numberRE : RE :=
  .seq (.rep isDigitC 1 none) (.seq (.cls (fun c => c = '.')) (.rep isDigitC 1 none))

/-- The coordinate pattern `(\d+\.\d+)\s*,\s*(\d+\.\d+)`. -/
def coordRE : RE :=
  .seq (.grp numberRE)
    (.seq (.rep isSpaceC 0 none)
      (.seq (.cls (fun c => c = ','))
        (.seq (.rep isSpaceC 0 none) (.grp numberRE))))

/-- The date-bound alternative `\d{4}-\d{2}-\d{2}`. -/
def isoRE : RE :=
  .seq (.rep isDigitC 4 (some 4))
    (.seq (.cls (fun c => c = '-'))
      (.seq (.rep isDigitC 2 (some 2))
        (.seq (.cls (fun c => c = '-')) (.rep isDigitC 2 (some 2)))))

/-- The date-bound alternative `\d{1,2}\s+\w+`. -/
def dayMonthRE : RE :=
  .seq (.rep isDigitC 1 (some 2)) (.seq (.rep isSpaceC 1 none) (.rep isWordC 1 none))

/-- A date bound: `\d{4}-\d{2}-\d{2}|\d{1,2}\s+\w+` (first alternative
preferred, as in Python). -/
def dateBoundRE : RE := .alt isoRE dayMonthRE

/-- The full date-range pattern of `parse_user_input`, under
`re.IGNORECASE`. -/
def dateRE : RE :=
  .seq (.alt (.lit "from".toList) (.lit "between".toList))
    (.seq (.rep isSpaceC 0 none)
      (.seq (.grp dateBoundRE)
        (.seq (.rep isSpaceC 0 none)
          (.seq (.alt (.lit "to".toList) (.lit "and".toList))
            (.seq (.rep isSpaceC 0 none) (.grp dateBoundRE))))))

/-- Syntactic absence of capturing groups. -/
def noGrp : RE → Bool
  | .cls _ => true
  | .lit _ => true
  | .seq a b => noGrp a && noGrp b
  | .alt a b => noGrp a && noGrp b
  | .rep _ _ _ => true
  | .grp _ => false

/-! ## Date-string parsing (`FarmBotAnalyzer._parse_date_string`) -/

/-- Days per month used by `datetime`'s validation. -/
def daysInMonth (year m : Nat) : Nat :=
  if m = 2 then
    if year % 4 = 0 && (year % 100 ≠ 0 || year % 400 = 0) then 29 else 28
  else if m = 4 || m = 6 || m = 9 || m = 11 then 30
  else 31

/-- The English month names recognised by `strptime`'s `%B`. -/
def monthNames : List (List Char) :=
  ["january", "february", "march", "april", "may", "june", "july",
   "august", "september", "october", "november", "december"].map String.toList

/-- Model of `datetime.strptime(s, "%d %B")`: a 1–2 digit non-zero day,
whitespace, a full month name (case-insensitive, consuming the rest of the
string), validated against `datetime`'s default year 1900.  Returns
(month, day). -/
def strptimeDayMonth (l : List Char) : Option (Nat × Nat) :=
  let ds := l.takeWhile Char.isDigit
  let rest := l.dropWhile Char.isDigit
  if ds.length = 0 || ds.length > 2 then none
  else
    let d := digitsVal ds
    if d = 0 then none
    else
      let ws := rest.takeWhile Char.isWhitespace
      let body := rest.dropWhile Char.isWhitespace
      if ws = [] then none
      else
        match monthNames.findIdx? (fun name => toLowerL body = name) with
        | some i => if d ≤ daysInMonth 1900 (i + 1) then some (i + 1, d) else none
        | none => none

/-- Model of `datetime.strptime(s, "%Y-%m-%d")`: exactly four year digits,
dashes, 1–2 digit month and day, full-string match, calendar-validated.
Returns (year, month, day). -/
def strptimeISO (l : List Char) : Option (Nat × Nat × Nat) :=
  let ys := l.takeWhile Char.isDigit
  if ys.length ≠ 4 then none
  else
    match l.drop 4 with
    | '-' :: r1 =>
      let ms := r1.takeWhile Char.isDigit
      if ms.length = 0 || ms.length > 2 then none
      else
        match r1.drop ms.length with
        | '-' :: r2 =>
          let ds := r2.takeWhile Char.isDigit
          if ds.length = 0 || ds.length > 2 || r2.drop ds.length ≠ [] then none
          else
            let y := digitsVal ys
            let m := digitsVal ms
            let d := digitsVal ds
            if 1 ≤ y && 1 ≤ m && m ≤ 12 && 1 ≤ d && d ≤ daysInMonth y m then
              some (y, m, d)
            else none
        | _ => none
    | _ => none

/-- Zero-padded two-digit field of `strftime`. -/
def pad2 (n : Nat) : String := if n < 10 then "0" ++ toString n else toString n

/-- ISO rendering `strftime("%Y-%m-%d")`; glibc's `%Y` prints the year
unpadded. -/
def fmtDate (y m d : Nat) : String := toString y ++ "-" ++ pad2 m ++ "-" ++ pad2 d

/-- Model of `FarmBotAnalyzer._parse_date_string`.  `year` is the ambient
`datetime.datetime.now().year`, read only in the month-name branch.  The
guard on that branch is the source's: the branch is taken only when no
character among the first four of the string is a digit. -/
def parse_date_string (year : Nat) (s : String) : Option String :=
  let l := s.toList
  if l = [] then none
  else if ((l.take 4).any Char.isDigit) = false then
    match strptimeDayMonth l with
    | some (m, d) => some (fmtDate year m d)
    | none => none
  else
    match strptimeISO l with
    | some (y, m, d) => some (fmtDate y m d)
    | none => none

/-! ## The Intent Parser (`FarmBotAnalyzer.parse_user_input`) -/

/-- The record built by `parse_user_input` (its `result` dictionary). -/
structure ParsedIntent where
  coordinates : Option (List (ℚ × ℚ))
  date_range : Option (String × String)
  analysis_type : String
  language : String
  other_instructions : List String
  special_requests : List String
deriving DecidableEq, Repr

/-- The fully-defaulted record `parse_user_input` starts from. -/
def defaultIntent : ParsedIntent :=
  { coordinates := none
    date_range := none
    analysis_type := "full"
    language := "english"
    other_instructions := []
    special_requests := [] }

/-- Coordinate extraction: `re.findall` of the coordinate pattern, then the
single `try` around the whole comprehension `[(float(lat), float(lon)) …]`;
a conversion failure anywhere leaves `coordinates` at `None`. -/
def parsedCoordinates (l : List Char) : Option (List (ℚ × ℚ)) :=
  let ms := reFindAll coordRE l
  if ms = [] then none
  else
    match ms.mapM (fun caps =>
        match caps with
        | [a, b] => do
          let x ← pyFloat (String.mk a)
          let y ← pyFloat (String.mk b)
          pure (x, y)
        | _ => none) with
    | some ps => some ps
    | none => none

/-- Date-range extraction: `re.search` of the date pattern, both bounds fed
to `_parse_date_string`, the range set only when both results are truthy
(non-`None` and non-empty). -/
def parsedDateRange (year : Nat) (l : List Char) : Option (String × String) :=
  match reSearch dateRE l with
  | some (_, [g1, g2]) =>
    match parse_date_string year (String.mk g1),
          parse_date_string year (String.mk g2) with
    | some sd, some ed => if sd = "" || ed = "" then none else some (sd, ed)
    | _, _ => none
  | _ => none

/-- The ordered keyword table of analysis-type detection
(`analysis_types.items()`, insertion order). -/
def analysisTypes : List (List Char × String) :=
  [("ndvi".toList, "ndvi_only"),
   ("soil".toList, "soil_moisture"),
   ("temperature".toList, "temp_only"),
   ("health".toList, "crop_health"),
   ("pest".toList, "pest_risk")]

/-- First matching keyword wins (`break`); no match leaves `"full"`. -/
def detectAnalysisType (low : List Char) : String :=
  match analysisTypes.find? (fun e => containsSub low e.1) with
  | some e => e.2
  | none => "full"

/-- Language detection: `"urdu"` or the native-script word anywhere in the
lowered input. -/
def detectLanguage (low : List Char) : String :=
  if containsSub low "urdu".toList || containsSub low "اردو".toList then "urdu"
  else "english"

/-- Model of `FarmBotAnalyzer.parse_user_input`.  `year` is the ambient
current year (the only process state the function could read, via
`_parse_date_string`); `none` stands for `None` or a non-`str` argument,
which the source maps to the default record. -/
def parse_user_input (year : Nat) (input : Option String) : ParsedIntent :=
  match input with
  | none => defaultIntent
  | some raw =>
    let l := pyStrip raw.toList
    if l = [] then defaultIntent
    else
      let low := toLowerL l
      { coordinates := parsedCoordinates l
        date_range := parsedDateRange year l
        analysis_type := detectAnalysisType low
        language := detectLanguage low
        other_instructions := []
        special_requests := [] }

/-! ## Coordinate validator (`utils/helpers.py: validate_coordinates`) -/

/-- Model of `validate_coordinates`: the boundary-inclusive Pakistan
bounding box.  The four literals are exactly representable binary floats,
so `ℚ` is a faithful carrier. -/
def validate_coordinates (lat lon : ℚ) : Bool :=
  (23.5 ≤ lat && lat ≤ 37.0) && (60.0 ≤ lon && lon ≤ 77.0)

/-! ## Health classifier (`FarmBotAnalyzer._assess_crop_health`) -/

/-- A dynamically-typed Python value as the classifier and report code see
them: a number (`int`/`float`), a string, or `None`. -/
inductive PyVal where
  | num (q : ℚ)
  | str (s : String)
  | pyNone
deriving DecidableEq, Repr

/-- Model of `_assess_crop_health`: `isinstance` guard, then strict
threshold cascade. -/
def assess_crop_health : PyVal → String
  | .num v =>
    if v > 0.7 then "Excellent"
    else if v > 0.5 then "Good"
    else if v > 0.3 then "Moderate"
    else "Poor"
  | _ => "Unknown"

/-! ## Weather formatting (`utils/helpers.py: format_weather_data`) -/

/-- The raw dictionary a weather lookup can produce: optional `error` key
and the five data keys. -/
structure WeatherDict where
  error : Option String := none
  temperature : Option PyVal := none
  humidity : Option PyVal := none
  wind_speed : Option PyVal := none
  conditions : Option PyVal := none
  rain : Option PyVal := none
deriving DecidableEq, Repr

/-- Runtime shape of `WeatherAPI.get_weather`'s result as the aggregator
checks it: a dictionary or something else. -/
inductive PyWeather where
  | dict (w : WeatherDict)
  | notDict
deriving DecidableEq, Repr

/-- The standardized snapshot `format_weather_data` returns. -/
structure FormattedWeather where
  temperature : PyVal
  humidity : PyVal
  wind_speed : PyVal
  conditions : PyVal
  rain : PyVal
deriving DecidableEq, Repr

/-- Model of `format_weather_data`: non-dict input and an `error` key both
degrade to sentinel fields (the `error` path via the internal
`raise ValueError`/`except`, which stamps the message into `conditions`). -/
def format_weather_data : PyWeather → FormattedWeather
  | .notDict =>
    { temperature := .str "N/A", humidity := .str "N/A", wind_speed := .str "N/A"
      conditions := .str "Unknown", rain := .num 0 }
  | .dict w =>
    match w.error with
    | some e =>
      { temperature := .str "N/A", humidity := .str "N/A", wind_speed := .str "N/A"
        conditions := .str ("Error: " ++ e), rain := .num 0 }
    | none =>
      { temperature := w.temperature.getD (.str "N/A")
        humidity := w.humidity.getD (.str "N/A")
        wind_speed := w.wind_speed.getD (.str "N/A")
        conditions := w.conditions.getD (.str "Unknown")
        rain := w.rain.getD (.num 0) }

/-! ## The Analysis Aggregator (`FarmBotAnalyzer.get_analysis_data`) -/

/-- One per-point record of the aggregator (`point_result`). -/
structure PointResult where
  coordinates : ℚ × ℚ
  analysis_period : String
  weather : FormattedWeather
  ndvi : Option PyVal := none
  crop_health : Option String := none
  soil_moisture : Option PyVal := none
deriving DecidableEq, Repr

/-- An entry of the aggregator's result mapping: a populated record or an
`{error: …}` record. -/
inductive PointOutcome where
  | errRec (msg : String)
  | res (r : PointResult)
deriving DecidableEq, Repr

/-- The aggregator's overall return value: the top-level
`{error: "No coordinates provided"}` object, or the per-point mapping
(association list in insertion order, Python dicts being ordered). -/
inductive AnalysisOutput where
  | topError (msg : String)
  | points (entries : List (String × PointOutcome))
deriving DecidableEq, Repr

/-- The external calls `get_analysis_data` makes, each of which may raise
(`Except.error`), per the spec's adapter failure contract:
* `geomBuffer` — `ee.Geometry.Point(lon, lat)` plus `.buffer(1000)`
  (lines 125–126, before the per-point `try`);
* `getWeather` — `WeatherAPI.get_weather(lat, lon)`;
* `ndviInfo` / `ndmiInfo` — the Sentinel-2 composite, `normalizedDifference`
  and `reduceRegion(...).get(...).getInfo()` chains for the given point and
  date range (the value returned can be `None`, hence `PyVal`);
* `nowRange` — the `(today − 90 days, today)` default period read from
  `datetime.datetime.now()`. -/
structure Adapters where
  geomBuffer : ℚ × ℚ → Except String Unit
  getWeather : ℚ × ℚ → Except String PyWeather
  ndviInfo : ℚ × ℚ → String × String → Except String PyVal
  ndmiInfo : ℚ × ℚ → String × String → Except String PyVal
  nowRange : String × String

/-- The `f"{date_range[0]} to {date_range[1]}"` field. -/
def analysisPeriod (dr : String × String) : String := dr.1 ++ " to " ++ dr.2

/-- The weather step, lines 130–136 plus the formatting of line 150: the
inner `try` converts a raised exception into an `{error: …}` dictionary and
a non-dict result into `{}`, so this step is total. -/
def weatherStep (A : Adapters) (p : ℚ × ℚ) : FormattedWeather :=
  match A.getWeather p with
  | .ok (.dict w) => format_weather_data (.dict w)
  | .ok .notDict => format_weather_data (.dict {})
  | .error e => format_weather_data (.dict { error := some ("Weather API error: " ++ e) })

/-- The body of the per-point `try` block (lines 129–175): weather, then
the conditional NDVI and NDMI computations, either of which may raise. -/
def tryBody (A : Adapters) (dr : String × String) (ty : String) (p : ℚ × ℚ) :
    Except String PointResult := do
  let w := weatherStep A p
  let base : PointResult :=
    { coordinates := p, analysis_period := analysisPeriod dr, weather := w }
  let r1 ←
    if ty = "full" || ty = "ndvi_only" || ty = "crop_health" then do
      let v ← A.ndviInfo p dr
      pure { base with ndvi := some v, crop_health := some (assess_crop_health v) }
    else pure base
  let r2 ←
    if ty = "full" || ty = "soil_moisture" then do
      let v ← A.ndmiInfo p dr
      pure { r1 with soil_moisture := some v }
    else pure r1
  pure r2

/-- One iteration of the per-point loop.  The geometry construction sits
between the validation and the `try` block, exactly as in the source: its
failure propagates out of the loop, while a `tryBody` failure becomes the
point's error record. -/
def pointStep (A : Adapters) (dr : String × String) (ty : String) (p : ℚ × ℚ) :
    Except String PointOutcome :=
  if validate_coordinates p.1 p.2 = false then
    .ok (.errRec "Coordinates outside Pakistan")
  else do
    let _ ← A.geomBuffer p
    pure (match tryBody A dr ty p with
          | .ok r => .res r
          | .error e => .errRec e)

/-- The `for i, (lat, lon) in enumerate(coords)` loop, accumulating
`point_{i}` entries; an uncaught exception abandons the whole mapping. -/
def analysisLoop (A : Adapters) (dr : String × String) (ty : String) :
    Nat → List (ℚ × ℚ) → Except String (List (String × PointOutcome))
  | _, [] => .ok []
  | i, p :: ps => do
    let o ← pointStep A dr ty p
    let rest ← analysisLoop A dr ty (i + 1) ps
    pure (("point_" ++ toString i, o) :: rest)

/-- Model of `FarmBotAnalyzer.get_analysis_data`.  The unused
`other_instructions` parameter is kept for signature fidelity (its mutable
`[]` default is never touched by the body). -/
def get_analysis_data (A : Adapters) (coords : List (ℚ × ℚ))
    (date_range : Option (String × String)) (analysis_type : String := "full")
    (other_instructions : List String := []) : Except String AnalysisOutput :=
  if coords = [] then .ok (.topError "No coordinates provided")
  else
    let dr := date_range.getD A.nowRange
    (analysisLoop A dr analysis_type 0 coords).map .points

/-- The per-point outcome as a pure function of that point alone; used to
state failure isolation. -/
def pointOutcome (A : Adapters) (dr : String × String) (ty : String) (p : ℚ × ℚ) :
    PointOutcome :=
  if validate_coordinates p.1 p.2 = false then .errRec "Coordinates outside Pakistan"
  else
    match tryBody A dr ty p with
    | .ok r => .res r
    | .error e => .errRec e

/-- Keyed per-point outcomes, one entry per input point in input order. -/
def isolatedOutcomes (A : Adapters) (dr : String × String) (ty : String) :
    Nat → List (ℚ × ℚ) → List (String × PointOutcome)
  | _, [] => []
  | i, p :: ps =>
    ("point_" ++ toString i, pointOutcome A dr ty p) :: isolatedOutcomes A dr ty (i + 1) ps

/-! ## The Report Synthesizer (`FarmBotAnalyzer.generate_pdf_report`)

The structural logic — input validation, the `has_any_data` /
`has_valid_data` scan, the footer status and the chart-file naming — is
embedded; the rendering calls into reportlab/matplotlib are external
primitives and are modelled as total. -/

/-- One value of the input mapping: a dictionary-shaped point entry (with
or without an `error` key, and with the optional `ndvi` /
`soil_moisture` fields the chart code probes) or something else. -/
inductive PdfEntry where
  | notDict
  | dict (hasError : Bool) (ndvi : Option PyVal) (soil_moisture : Option PyVal)
deriving DecidableEq, Repr

/-- The `data` argument: a mapping (ordered entries) or a non-dict value. -/
inductive PdfData where
  | notDict
  | dict (entries : List (String × PdfEntry))
deriving DecidableEq, Repr

/-- What a successful `generate_pdf_report` run produces: the returned
file path, the footer status stamped on every page, and the chart files it
wrote, in creation order. -/
structure PdfResult where
  filename : String
  footer_status : String
  chart_paths : List String
deriving DecidableEq, Repr

/-- The process temp directory (`tempfile.gettempdir()`): one fixed
directory shared by every request of the process. -/
def tempDir : String := "/tmp"

/-- Chart path `os.path.join(tempfile.gettempdir(), f"ndvi_chart_{point_key}.png")`. -/
def ndviChartPath (key : String) : String :=
  tempDir ++ "/" ++ "ndvi_chart_" ++ key ++ ".png"

/-- Chart path `os.path.join(tempfile.gettempdir(), f"moisture_chart_{point_key}.png")`. -/
def moistureChartPath (key : String) : String :=
  tempDir ++ "/" ++ "moisture_chart_" ++ key ++ ".png"

/-- Numeric-field probe `'k' in d and isinstance(d['k'], (int, float))`. -/
def isNumField : Option PyVal → Bool
  | some (.num _) => true
  | _ => false

/-- Chart files written for one successful point entry. -/
def pointChartPaths (key : String) : PdfEntry → List String
  | .notDict => []
  | .dict hasError ndvi soil =>
    if hasError then []
    else
      (if isNumField ndvi then [ndviChartPath key] else []) ++
        (if isNumField soil then [moistureChartPath key] else [])

/-- Entry is dictionary-shaped. -/
def isDictEntry : PdfEntry → Bool
  | .dict _ _ _ => true
  | .notDict => false

/-- Entry is a successful point: dictionary-shaped without an `error` key. -/
def isValidEntry : PdfEntry → Bool
  | .dict hasError _ _ => !hasError
  | .notDict => false

/-- Model of `generate_pdf_report`'s structural behaviour: the two
`ValueError` raises, the `has_any_data` / `has_valid_data` scan, the
fixed report filename, the footer status chosen by `add_footer`, and the
chart paths produced for the successful points.  The `instructions`
parameter (the caller passes the parsed intent) is accepted and unused,
as in the source, where it is only defaulted to `{}`. -/
def generate_pdf_report (data : PdfData)
    (instructions : Option (List (String × String)) := none) : Except String PdfResult :=
  match data with
  | .notDict => .error "Invalid data format - expected dictionary with analysis results"
  | .dict entries =>
    if entries = [] then
      .error "Invalid data format - expected dictionary with analysis results"
    else
      let has_any_data := entries.any (fun e => isDictEntry e.2)
      let has_valid_data := entries.any (fun e => isValidEntry e.2)
      if !has_any_data then .error "No valid point data structure found in input"
      else
        .ok { filename := tempDir ++ "/" ++ "farmbot_analysis_report.pdf"
              footer_status := if !has_valid_data then "Partial" else "Complete"
              chart_paths := entries.flatMap (fun e => pointChartPaths e.1 e.2) }

/-! ## Spec-side companion definitions used to state the claims -/

/-- Structural invalidity as the spec words it: the input is not a mapping,
is empty, or contains no dictionary-shaped point entries. -/
def structurallyInvalid : PdfData → Bool
  | .notDict => true
  | .dict entries => entries.isEmpty || !entries.any (fun e => isDictEntry e.2)

/-- Some point entry succeeded (dictionary-shaped without an `error` key). -/
def anySuccessEntry : PdfData → Bool
  | .notDict => false
  | .dict entries => entries.any (fun e => isValidEntry e.2)

/-- Exact rational value of a matched numeral `digits.digits`, as
`float()` computes it. -/
def ratNum (g : List Char) : ℚ :=
  (digitsVal (g.takeWhile Char.isDigit) : ℚ) +
    (digitsVal ((g.dropWhile Char.isDigit).tail) : ℚ) /
      ((10 : ℚ) ^ ((g.dropWhile Char.isDigit).tail).length)

/-- Total conversion of one coordinate match's captures to a float pair. -/
def pairVal (caps : List (List Char)) : ℚ × ℚ :=
  match caps with
  | [a, b] => (ratNum a, ratNum b)
  | _ => (0, 0)

/-- Well-formed numeral shape of a capture of the `\d+\.\d+` group. -/
def WfNum (g : List Char) : Prop :=
  ∃ a b, a ≠ [] ∧ b ≠ [] ∧ a.all Char.isDigit = true ∧ b.all Char.isDigit = true ∧
    g = a ++ '.' :: b

/-- A list starting with a decimal digit. -/
def HeadDigit (g : List Char) : Prop :=
  ∃ c t, g = c :: t ∧ c.isDigit = true

/-! ## Concrete instances for witnesses and counterexamples -/

/-- Adapters whose calls all succeed, for witness instantiations. -/
def okAdapters : Adapters :=
  { geomBuffer := fun _ => .ok ()
    getWeather := fun _ => .ok (.dict { temperature := some (.num 30), humidity := some (.num 40) })
    ndviInfo := fun _ _ => .ok (.num 0.6)
    ndmiInfo := fun _ _ => .ok (.num 0.2)
    nowRange := ("2025-07-14", "2025-10-12") }

/-- Adapters in an environment where the Earth Engine client raises already
at geometry construction (for instance an uninitialized client library);
the weather, NDVI and NDMI calls themselves would all succeed. -/
def eeDownAdapters : Adapters :=
  { geomBuffer := fun _ => .error "Earth Engine client library not initialized"
    getWeather := fun _ => .ok (.dict {})
    ndviInfo := fun _ _ => .ok (.num 0.6)
    ndmiInfo := fun _ _ => .ok (.num 0.2)
    nowRange := ("2025-07-14", "2025-10-12") }

/-- A report input in which every point entry carries an `error` key. -/
def pdfAllErrors : PdfData :=
  .dict [("point_0", .dict true none none), ("point_1", .dict true none none)]

/-- Aggregated data of one request: one successful point with NDVI 0.5. -/
def pdfRunA : PdfData := .dict [("point_0", .dict false (some (.num 0.5)) none)]

/-- Aggregated data of a different request: same point key, NDVI 0.6. -/
def pdfRunB : PdfData := .dict [("point_0", .dict false (some (.num 0.6)) none)]

/-! ## Theorems -/

/-- C8: the coordinate validator is a pure total boundary-inclusive box
test — true exactly on 23.5 ≤ lat ≤ 37.0 and 60.0 ≤ lon ≤ 77.0, false
everywhere else (totality is inherent: it is a Boolean function). -/
theorem C8_validator_box (lat lon : ℚ) :
    validate_coordinates lat lon = true ↔
      ((23.5 ≤ lat ∧ lat ≤ 37.0) ∧ (60.0 ≤ lon ∧ lon ≤ 77.0)) := by
  simp [validate_coordinates]

/-- C4: the health classifier's strict thresholds — `Excellent` iff
v > 0.7, `Good` iff 0.5 < v ≤ 0.7, `Moderate` iff 0.3 < v ≤ 0.5, `Poor`
iff v ≤ 0.3 (boundary values fall into the lower bracket), and `Unknown`
on every non-numeric input, without failing. -/
theorem C4_classifier_thresholds :
    (∀ v : ℚ,
        (assess_crop_health (.num v) = "Excellent" ↔ 0.7 < v) ∧
        (assess_crop_health (.num v) = "Good" ↔ 0.5 < v ∧ v ≤ 0.7) ∧
        (assess_crop_health (.num v) = "Moderate" ↔ 0.3 < v ∧ v ≤ 0.5) ∧
        (assess_crop_health (.num v) = "Poor" ↔ v ≤ 0.3)) ∧
    (∀ s : String, assess_crop_health (.str s) = "Unknown") ∧
    assess_crop_health .pyNone = "Unknown" := by
  refine ⟨fun v => ?_, fun _ => rfl, rfl⟩
  simp only [assess_crop_health]
  split_ifs with h1 h2 h3 <;>
    refine ⟨?_, ?_, ?_, ?_⟩ <;>
    constructor <;>
    intro h <;>
    first
      | rfl
      | exact absurd h (by decide)
      | (constructor <;> linarith)
      | linarith

/-- C2: the Report Synthesizer raises exactly on structurally invalid
input (not a mapping, empty, or no dictionary-shaped entries); otherwise
it returns the report path, and the footer reads `Partial` exactly when no
point entry succeeded. -/
theorem C2_report_structural (d : PdfData) :
    ((∃ msg, generate_pdf_report d = .error msg) ↔ structurallyInvalid d = true) ∧
    (∀ r, generate_pdf_report d = .ok r →
      r.filename = tempDir ++ "/" ++ "farmbot_analysis_report.pdf" ∧
      (r.footer_status = "Partial" ↔ anySuccessEntry d = false)) := by
  cases d with
  | notDict => simp [generate_pdf_report, structurallyInvalid]
  | dict entries =>
    by_cases he : entries = []
    · subst he
      simp [generate_pdf_report, structurallyInvalid]
    · by_cases ha : entries.any (fun e => isDictEntry e.2)
      · constructor
        · simp [generate_pdf_report, structurallyInvalid, he, ha, List.isEmpty_iff]
        · intro r hr
          rw [generate_pdf_report] at hr
          rw [if_neg (by simp [he])] at hr
          rw [if_neg (by simp [ha])] at hr
          cases hr
          by_cases hv : entries.any (fun e => isValidEntry e.2) <;>
            simp [anySuccessEntry, hv]
      · constructor
        · simp [generate_pdf_report, structurallyInvalid, he, ha, List.isEmpty_iff]
        · intro r hr
          rw [generate_pdf_report] at hr
          rw [if_neg (by simp [he])] at hr
          rw [if_pos (by simp [ha])] at hr
          cases hr

/-- Witness for C2 at the claim's highlighted scenario: a mapping in which
every point entry carries an `error` key still yields a report whose
footer status is `Partial`. -/
theorem C2_report_structural_witness :
    ∃ r, generate_pdf_report pdfAllErrors = .ok r ∧
      r.filename = tempDir ++ "/" ++ "farmbot_analysis_report.pdf" ∧
      r.footer_status = "Partial" := by
  have h := (C2_report_structural pdfAllErrors).2
  have hg : generate_pdf_report pdfAllErrors =
      .ok { filename := "/tmp/farmbot_analysis_report.pdf"
            footer_status := "Partial", chart_paths := [] } := rfl
  exact ⟨_, hg, (h _ hg).1, ((h _ hg).2).mpr (by decide)⟩

/-- Counterexample to C6 as stated: two distinct report-generation runs —
different requests with different aggregated data — produce the *same*
chart image file path, because the name depends only on the point key and
carries no per-request identifier. -/
theorem C6_chart_collision_counterexample :
    pdfRunA ≠ pdfRunB ∧
    (generate_pdf_report pdfRunA).toOption.map PdfResult.chart_paths =
      some ["/tmp/ndvi_chart_point_0.png"] ∧
    (generate_pdf_report pdfRunB).toOption.map PdfResult.chart_paths =
      some ["/tmp/ndvi_chart_point_0.png"] := by
  refine ⟨fun h => ?_, rfl, rfl⟩
  simp [pdfRunA, pdfRunB] at h
  norm_num at h

/-- C6 (amended): chart file names are a fixed function of the point key
alone — `tmpdir/ndvi_chart_<key>.png` and `tmpdir/moisture_chart_<key>.png`
— so within one run distinct keys and distinct chart kinds give distinct
files, but any two runs sharing a point key share the same paths (there is
no per-request identifier). -/
theorem C6_chart_naming_key_only :
    (∀ key : String, ndviChartPath key = "/tmp/ndvi_chart_" ++ key ++ ".png") ∧
    (∀ key : String, moistureChartPath key = "/tmp/moisture_chart_" ++ key ++ ".png") ∧
    (∀ k₁ k₂ : String, ndviChartPath k₁ = ndviChartPath k₂ → k₁ = k₂) ∧
    (∀ k₁ k₂ : String, moistureChartPath k₁ = moistureChartPath k₂ → k₁ = k₂) ∧
    (∀ k₁ k₂ : String, ndviChartPath k₁ ≠ moistureChartPath k₂) := by
  refine ⟨fun _ => rfl, fun _ => rfl, fun k₁ k₂ h => ?_, fun k₁ k₂ h => ?_, fun k₁ k₂ h => ?_⟩
  · have hd := congrArg String.data h
    simp only [ndviChartPath, tempDir, String.data_append, List.append_assoc] at hd
    exact String.ext (List.append_cancel_right
      (List.append_cancel_left (List.append_cancel_left (List.append_cancel_left hd))))
  · have hd := congrArg String.data h
    simp only [moistureChartPath, tempDir, String.data_append, List.append_assoc] at hd
    exact String.ext (List.append_cancel_right
      (List.append_cancel_left (List.append_cancel_left (List.append_cancel_left hd))))
  · have hd := congrArg (fun s => s.data[5]?) h
    simp only [ndviChartPath, moistureChartPath, tempDir, String.data_append,
      List.append_assoc, List.getElem?_append] at hd
    simp at hd

/-- Witness for C6 (amended): the naming function applied to the two keys
`point_0` and `point_1` gives distinct paths. -/
theorem C6_chart_naming_key_only_witness :
    ndviChartPath "point_0" = "/tmp/ndvi_chart_point_0.png" ∧ "point_0" = "point_0" := by
  exact ⟨C6_chart_naming_key_only.1 "point_0",
    C6_chart_naming_key_only.2.2.1 "point_0" "point_0" rfl⟩

/-- A loop iteration whose geometry construction succeeds (when reached)
returns exactly the pure per-point outcome. -/
lemma pointStep_ok (A : Adapters) (dr : String × String) (ty : String) (p : ℚ × ℚ)
    (h : validate_coordinates p.1 p.2 = true → A.geomBuffer p = .ok ()) :
    pointStep A dr ty p = .ok (pointOutcome A dr ty p) := by
  unfold pointStep pointOutcome
  by_cases hv : validate_coordinates p.1 p.2 = false
  · simp [hv]
  · have hv' : validate_coordinates p.1 p.2 = true := by
      cases hval : validate_coordinates p.1 p.2
      · exact absurd hval hv
      · rfl
    simp [hv, h hv', Except.bind]

/-- Under point-wise geometry success the whole loop is the pointwise map:
entry `i` is a function of point `i` alone, in input order, with no early
abort. -/
lemma analysisLoop_isolated (A : Adapters) (dr : String × String) (ty : String)
    (coords : List (ℚ × ℚ))
    (h : ∀ p ∈ coords, validate_coordinates p.1 p.2 = true → A.geomBuffer p = .ok ()) :
    ∀ i, analysisLoop A dr ty i coords = .ok (isolatedOutcomes A dr ty i coords) := by
  induction coords with
  | nil => intro i; rfl
  | cons p ps ih =>
    intro i
    have hp := pointStep_ok A dr ty p (h p (List.mem_cons_self p ps))
    have hrest := ih (fun q hq => h q (List.mem_cons_of_mem p hq)) (i + 1)
    simp only [analysisLoop, isolatedOutcomes, hp, hrest]
    rfl

/-- C1 (amended): per-point failure isolation holds for everything inside
the per-point `try` block.  Part 1: with point 0 outside the region and
every adapter call for point 1 succeeding, the mapping has the `point_0`
error record and a fully populated `point_1` result.  Part 2: whenever the
geometry construction (the one per-point step the source leaves outside
its `try`) succeeds for every valid point, the result is exactly the
per-point outcome map — each entry depends only on its own point, adapter
exceptions for a point becoming that point's error record only. -/
theorem C1_per_point_isolation :
    (∀ (A : Adapters) (p₀ p₁ : ℚ × ℚ) (dr : String × String) (w : WeatherDict)
        (nv mv : PyVal),
        validate_coordinates p₀.1 p₀.2 = false →
        validate_coordinates p₁.1 p₁.2 = true →
        A.geomBuffer p₁ = .ok () →
        A.getWeather p₁ = .ok (.dict w) →
        A.ndviInfo p₁ dr = .ok nv →
        A.ndmiInfo p₁ dr = .ok mv →
        get_analysis_data A [p₀, p₁] (some dr) "full" [] =
          .ok (.points
            [("point_0", .errRec "Coordinates outside Pakistan"),
             ("point_1", .res
                { coordinates := p₁
                  analysis_period := analysisPeriod dr
                  weather := format_weather_data (.dict w)
                  ndvi := some nv
                  crop_health := some (assess_crop_health nv)
                  soil_moisture := some mv })])) ∧
    (∀ (A : Adapters) (dr : String × String) (ty : String) (oi : List String)
        (coords : List (ℚ × ℚ)),
        coords ≠ [] →
        (∀ p ∈ coords, validate_coordinates p.1 p.2 = true → A.geomBuffer p = .ok ()) →
        get_analysis_data A coords (some dr) ty oi =
          .ok (.points (isolatedOutcomes A dr ty 0 coords))) := by
  have main :
      ∀ (A : Adapters) (dr : String × String) (ty : String) (oi : List String)
        (coords : List (ℚ × ℚ)),
        coords ≠ [] →
        (∀ p ∈ coords, validate_coordinates p.1 p.2 = true → A.geomBuffer p = .ok ()) →
        get_analysis_data A coords (some dr) ty oi =
          .ok (.points (isolatedOutcomes A dr ty 0 coords)) := by
    intro A dr ty oi coords hne h
    unfold get_analysis_data
    rw [if_neg hne]
    show Except.map AnalysisOutput.points (analysisLoop A dr ty 0 coords) =
      Except.ok (AnalysisOutput.points (isolatedOutcomes A dr ty 0 coords))
    rw [analysisLoop_isolated A dr ty coords h 0]
    rfl
  refine ⟨?_, main⟩
  intro A p₀ p₁ dr w nv mv hv0 hv1 hg hw hn hm
  rw [main A dr "full" [] [p₀, p₁] (by simp) ?_]
  · have ho0 : pointOutcome A dr "full" p₀ = .errRec "Coordinates outside Pakistan" := by
      unfold pointOutcome
      rw [if_pos hv0]
    have hbody : tryBody A dr "full" p₁ =
        .ok { coordinates := p₁
              analysis_period := analysisPeriod dr
              weather := format_weather_data (.dict w)
              ndvi := some nv
              crop_health := some (assess_crop_health nv)
              soil_moisture := some mv } := by
      unfold tryBody weatherStep
      rw [hw, hn, hm]
      rfl
    have ho1 : pointOutcome A dr "full" p₁ = .res
        { coordinates := p₁
          analysis_period := analysisPeriod dr
          weather := format_weather_data (.dict w)
          ndvi := some nv
          crop_health := some (assess_crop_health nv)
          soil_moisture := some mv } := by
      unfold pointOutcome
      rw [if_neg (by simp [hv1]), hbody]
    simp [isolatedOutcomes, ho0, ho1]
    exact ⟨rfl, rfl⟩
  · intro p hp htrue
    rcases List.mem_cons.mp hp with rfl | hp2
    · rw [htrue] at hv0
      exact absurd hv0 (by simp)
    · have hpe : p = p₁ := by simpa using hp2
      rw [hpe]
      exact hg

/-- Witness for C1 (amended) at concrete inputs: point (0,0) is rejected,
point (30,70) is fully analysed with the successful adapters. -/
theorem C1_per_point_isolation_witness :
    get_analysis_data okAdapters [(0, 0), (30, 70)] (some ("2024-01-01", "2024-03-01")) "full" [] =
      .ok (.points
        [("point_0", .errRec "Coordinates outside Pakistan"),
         ("point_1", .res
            { coordinates := (30, 70)
              analysis_period := analysisPeriod ("2024-01-01", "2024-03-01")
              weather := format_weather_data
                (.dict { temperature := some (.num 30), humidity := some (.num 40) })
              ndvi := some (.num 0.6)
              crop_health := some (assess_crop_health (.num 0.6))
              soil_moisture := some (.num 0.2) })]) :=
  C1_per_point_isolation.1 okAdapters (0, 0) (30, 70) ("2024-01-01", "2024-03-01")
    { temperature := some (.num 30), humidity := some (.num 40) } (.num 0.6) (.num 0.2)
    (by norm_num [validate_coordinates]) (by norm_num [validate_coordinates])
    rfl rfl rfl rfl

/-- Counterexample to C1 as stated: both points lie inside the region and
every guarded adapter call would succeed, but the geometry construction —
part of processing point 0, yet placed before the per-point `try` — raises;
the exception is *not* converted into an error record for point 0 only: the
whole call raises and no entry (in particular none for point 1) is
produced. -/
theorem C1_batch_abort_counterexample :
    get_analysis_data eeDownAdapters [(30, 70), (31, 71)]
        (some ("2024-01-01", "2024-03-01")) "full" [] =
      .error "Earth Engine client library not initialized" := by
  have hv : validate_coordinates (30 : ℚ) (70 : ℚ) = true := by
    norm_num [validate_coordinates]
  unfold get_analysis_data analysisLoop pointStep
  rw [if_neg (by simp)]
  simp only [hv, eeDownAdapters]
  rfl

/-- C3 (code behaviour at the failing input): the month-name branch of
`_parse_date_string` is unreachable for day-first strings — any string of
shape `<day> <month-name>` has a digit among its first four characters, so
the guard sends it to the ISO parser, which fails; hence `"15 June"` parses
to `None` for every ambient year and the date range of
`"from 15 June to 2024-03-01"` stays unset. -/
theorem C3_month_name_dates_rejected (y : Nat) :
    parse_date_string y "15 June" = none ∧
    (parse_user_input y (some "from 15 June to 2024-03-01")).date_range = none :=
  ⟨rfl, rfl⟩

/-! ## Inversion lemmas for the regex engine -/

lemma matchLit_length {l s rest : List Char} (h : matchLit l s = some rest) :
    rest.length ≤ s.length := by
  induction l generalizing s with
  | nil =>
    simp [matchLit] at h
    simp [h]
  | cons c cs ih =>
    cases s with
    | nil => simp [matchLit] at h
    | cons d ds =>
      rw [matchLit] at h
      by_cases hc : d.toLower = c
      · rw [if_pos hc] at h
        exact le_trans (ih h) (Nat.le_succ _)
      · rw [if_neg hc] at h
        cases h

lemma mem_repCounts {lo k m : Nat} {hi : Option Nat} (h : k ∈ repCounts lo hi m) :
    lo ≤ k ∧ k ≤ m := by
  cases hi with
  | none =>
    simp only [repCounts] at h
    rcases List.mem_filter.mp h with ⟨hmem, hlo⟩
    have hk := List.mem_range.mp (List.mem_reverse.mp hmem)
    exact ⟨by simpa using hlo, by omega⟩
  | some hh =>
    simp only [repCounts] at h
    rcases List.mem_filter.mp h with ⟨hmem, hlo⟩
    have hk := List.mem_range.mp (List.mem_reverse.mp hmem)
    have hmin := Nat.min_le_right hh m
    exact ⟨by simpa using hlo, by omega⟩

lemma charRun_le (p : Char → Bool) (s : List Char) : charRun p s ≤ s.length := by
  induction s with
  | nil => simp [charRun]
  | cons c cs ih =>
    rw [charRun]
    by_cases hc : p c
    · rw [if_pos hc]
      simpa using ih
    · rw [if_neg hc]
      simp

lemma take_charRun_all {p : Char → Bool} {k : Nat} :
    ∀ {s : List Char}, k ≤ charRun p s → (s.take k).all p = true := by
  induction k with
  | zero => intro s _; simp
  | succ n ih =>
    intro s h
    cases s with
    | nil => simp
    | cons c cs =>
      rw [charRun] at h
      by_cases hc : p c
      · rw [if_pos hc] at h
        simp only [List.take_succ_cons, List.all_cons, hc, Bool.true_and]
        exact ih (Nat.succ_le_succ_iff.mp h)
      · rw [if_neg hc] at h
        omega

lemma reRun_length : ∀ (r : RE) (s : List Char), ∀ x ∈ reRun r s, x.1.length ≤ s.length := by
  intro r
  induction r with
  | cls p =>
    intro s x hx
    cases s with
    | nil => simp [reRun] at hx
    | cons c cs =>
      rw [reRun] at hx
      by_cases hc : p c
      · rw [if_pos hc] at hx
        simp at hx
        simp [hx]
      · rw [if_neg hc] at hx
        cases hx
  | lit l =>
    intro s x hx
    rw [reRun] at hx
    cases hm : matchLit l s with
    | none => rw [hm] at hx; cases hx
    | some rest =>
      rw [hm] at hx
      simp at hx
      rw [hx]
      exact matchLit_length hm
  | seq a b iha ihb =>
    intro s x hx
    rw [reRun] at hx
    rcases List.mem_flatMap.mp hx with ⟨y, hy, hxy⟩
    rcases List.mem_map.mp hxy with ⟨z, hz, hxz⟩
    rw [← hxz]
    exact le_trans (ihb y.1 z hz) (iha s y hy)
  | alt a b iha ihb =>
    intro s x hx
    rw [reRun] at hx
    rcases List.mem_append.mp hx with h | h
    · exact iha s x h
    · exact ihb s x h
  | rep p lo hi =>
    intro s x hx
    rw [reRun] at hx
    rcases List.mem_map.mp hx with ⟨k, _, hxk⟩
    rw [← hxk]
    simp
  | grp a ih =>
    intro s x hx
    rw [reRun] at hx
    rcases List.mem_map.mp hx with ⟨y, hy, hxy⟩
    rw [← hxy]
    exact ih s y hy

lemma reRun_cls {p : Char → Bool} {s : List Char} {x : List Char × List (List Char)}
    (hx : x ∈ reRun (.cls p) s) :
    x.2 = [] ∧ ∃ c cs, s = c :: cs ∧ p c = true ∧ x.1 = cs := by
  cases s with
  | nil => simp [reRun] at hx
  | cons c cs =>
    rw [reRun] at hx
    by_cases hc : p c
    · rw [if_pos hc] at hx
      simp at hx
      rw [hx]
      exact ⟨rfl, c, cs, rfl, hc, rfl⟩
    · rw [if_neg hc] at hx
      cases hx

lemma reRun_seq {a b : RE} {s : List Char} {x : List Char × List (List Char)}
    (hx : x ∈ reRun (.seq a b) s) :
    ∃ y ∈ reRun a s, ∃ z ∈ reRun b y.1, x = (z.1, y.2 ++ z.2) := by
  rw [reRun] at hx
  rcases List.mem_flatMap.mp hx with ⟨y, hy, hxy⟩
  rcases List.mem_map.mp hxy with ⟨z, hz, hxz⟩
  exact ⟨y, hy, z, hz, hxz.symm⟩

lemma reRun_alt {a b : RE} {s : List Char} {x : List Char × List (List Char)}
    (hx : x ∈ reRun (.alt a b) s) : x ∈ reRun a s ∨ x ∈ reRun b s := by
  rw [reRun] at hx
  exact List.mem_append.mp hx

lemma reRun_rep {p : Char → Bool} {lo : Nat} {hi : Option Nat} {s : List Char}
    {x : List Char × List (List Char)} (hx : x ∈ reRun (.rep p lo hi) s) :
    x.2 = [] ∧ ∃ k, lo ≤ k ∧ k ≤ charRun p s ∧ x.1 = s.drop k := by
  rw [reRun] at hx
  rcases List.mem_map.mp hx with ⟨k, hk, hxk⟩
  rcases mem_repCounts hk with ⟨hlo, hhi⟩
  rw [← hxk]
  exact ⟨rfl, k, hlo, hhi, rfl⟩

lemma reRun_grp {a : RE} {s : List Char} {x : List Char × List (List Char)}
    (hx : x ∈ reRun (.grp a) s) :
    ∃ y ∈ reRun a s, x = (y.1, s.take (s.length - y.1.length) :: y.2) := by
  rw [reRun] at hx
  rcases List.mem_map.mp hx with ⟨y, hy, hxy⟩
  exact ⟨y, hy, hxy.symm⟩

lemma reRun_lit {l s : List Char} {x : List Char × List (List Char)}
    (hx : x ∈ reRun (.lit l) s) : x.2 = [] ∧ matchLit l s = some x.1 := by
  rw [reRun] at hx
  cases hm : matchLit l s with
  | none => rw [hm] at hx; cases hx
  | some rest =>
    rw [hm] at hx
    simp at hx
    rw [hx]
    exact ⟨rfl, rfl⟩

lemma reSearch_mem {r : RE} : ∀ {s : List Char} {res : List Char × List (List Char)},
    reSearch r s = some res → ∃ t : List Char, res ∈ reRun r t := by
  intro s
  induction s with
  | nil =>
    intro res h
    rw [reSearch] at h
    exact ⟨[], List.mem_of_mem_head? h⟩
  | cons c cs ih =>
    intro res h
    rw [reSearch] at h
    cases hh : (reRun r (c :: cs)).head? with
    | some x =>
      rw [hh] at h
      cases h
      exact ⟨c :: cs, List.mem_of_mem_head? hh⟩
    | none =>
      rw [hh] at h
      exact ih h

lemma reFindAll_mem {r : RE} {caps : List (List Char)} :
    ∀ {fuel : Nat} {s : List Char}, caps ∈ reFindAllAux r fuel s →
      ∃ (t : List Char) (res : List Char × List (List Char)), res ∈ reRun r t ∧ caps = res.2 := by
  intro fuel
  induction fuel with
  | zero => intro s h; simp [reFindAllAux] at h
  | succ n ih =>
    intro s h
    simp only [reFindAllAux] at h
    cases hs : reSearch r s with
    | none =>
      simp only [hs] at h
      simp at h
    | some res =>
      obtain ⟨rest, mcaps⟩ := res
      simp only [hs] at h
      rcases reSearch_mem hs with ⟨t, hmem⟩
      by_cases hlt : rest.length < s.length
      · rw [if_pos hlt] at h
        rcases List.mem_cons.mp h with hc | hc
        · exact ⟨t, (rest, mcaps), hmem, hc⟩
        · exact ih hc
      · rw [if_neg hlt] at h
        rcases List.mem_cons.mp h with hc | hc
        · exact ⟨t, (rest, mcaps), hmem, hc⟩
        · cases s with
          | nil => simp at hc
          | cons c cs => exact ih hc

/-! ## Shape of coordinate-pattern matches -/

lemma numberRE_shape {s : List Char} {x : List Char × List (List Char)}
    (hx : x ∈ reRun numberRE s) :
    x.2 = [] ∧ ∃ a b, a ≠ [] ∧ b ≠ [] ∧ a.all Char.isDigit = true ∧
      b.all Char.isDigit = true ∧ s = a ++ '.' :: (b ++ x.1) := by
  rcases reRun_seq hx with ⟨y, hy, z, hz, hxz⟩
  rcases reRun_rep hy with ⟨hy2, k₁, hk₁lo, hk₁hi, hy1⟩
  rcases reRun_seq hz with ⟨u, hu, v, hv, hzv⟩
  rcases reRun_cls hu with ⟨hu2, c, cs, hsplit, hc, hu1⟩
  rcases reRun_rep hv with ⟨hv2, k₂, hk₂lo, hk₂hi, hv1⟩
  rw [hu1] at hk₂hi hv1
  have hcdot : c = '.' := of_decide_eq_true hc
  have hk₁len : k₁ ≤ s.length := le_trans hk₁hi (charRun_le _ s)
  have hk₂len : k₂ ≤ cs.length := le_trans hk₂hi (charRun_le _ cs)
  refine ⟨?_, s.take k₁, cs.take k₂, ?_, ?_, ?_, ?_, ?_⟩
  · rw [hxz, hzv]
    simp [hy2, hu2, hv2]
  · have : (s.take k₁).length = k₁ := by simp [hk₁len]
    intro hnil
    rw [hnil] at this
    simp at this
    omega
  · have : (cs.take k₂).length = k₂ := by simp [hk₂len]
    intro hnil
    rw [hnil] at this
    simp at this
    omega
  · exact take_charRun_all hk₁hi
  · exact take_charRun_all hk₂hi
  · have hx1 : x.1 = cs.drop k₂ := by
      rw [hxz, hzv]
      simpa using hv1
    rw [hx1]
    conv_lhs => rw [← List.take_append_drop k₁ s]
    rw [← hy1, hsplit, hcdot, ← List.take_append_drop k₂ cs]
    simp

lemma grp_numberRE_caps {s : List Char} {x : List Char × List (List Char)}
    (hx : x ∈ reRun (.grp numberRE) s) :
    ∃ g, x.2 = [g] ∧ WfNum g ∧ s = g ++ x.1 := by
  rcases reRun_grp hx with ⟨y, hy, hxy⟩
  rcases numberRE_shape hy with ⟨hy2, a, b, ha, hb, had, hbd, hs⟩
  have hsu : s = (a ++ '.' :: b) ++ y.1 := by
    rw [hs]
    simp
  have hlen : s.length - y.1.length = (a ++ '.' :: b).length := by
    rw [hsu]
    simp
    omega
  have htake : s.take (s.length - y.1.length) = a ++ '.' :: b := by
    rw [hlen]
    rw [hsu, List.take_left]
  refine ⟨a ++ '.' :: b, ?_, ⟨a, b, ha, hb, had, hbd, rfl⟩, ?_⟩
  · rw [hxy]
    simp [htake, hy2]
  · rw [hxy]
    exact hsu

lemma coordRE_caps {s : List Char} {x : List Char × List (List Char)}
    (hx : x ∈ reRun coordRE s) :
    ∃ g₁ g₂, x.2 = [g₁, g₂] ∧ WfNum g₁ ∧ WfNum g₂ := by
  rcases reRun_seq hx with ⟨y, hy, z, hz, hxz⟩
  rcases grp_numberRE_caps hy with ⟨g₁, hy2, hwf1, _⟩
  rcases reRun_seq hz with ⟨w1, hw1, z2, hz2, hzz⟩
  rcases reRun_rep hw1 with ⟨hw12, _, _, _, _⟩
  rcases reRun_seq hz2 with ⟨w2, hw2, z3, hz3, hzz3⟩
  rcases reRun_cls hw2 with ⟨hw22, _, _, _, _, _⟩
  rcases reRun_seq hz3 with ⟨w3, hw3, z4, hz4, hzz4⟩
  rcases reRun_rep hw3 with ⟨hw32, _, _, _, _⟩
  rcases grp_numberRE_caps hz4 with ⟨g₂, hz42, hwf2, _⟩
  refine ⟨g₁, g₂, ?_, hwf1, hwf2⟩
  rw [hxz, hzz, hzz3, hzz4]
  simp [hy2, hw12, hw22, hw32, hz42]

/-! ## `float()` succeeds on every matched numeral -/

lemma all_takeWhile_append {p : Char → Bool} {a : List Char} {x : Char} {b : List Char}
    (ha : a.all p = true) (hx : p x = false) :
    (a ++ x :: b).takeWhile p = a ∧ (a ++ x :: b).dropWhile p = x :: b := by
  induction a with
  | nil => simp [List.takeWhile_cons, List.dropWhile_cons, hx]
  | cons c cs ih =>
    simp only [List.all_cons, Bool.and_eq_true] at ha
    have := ih ha.2
    simp [List.takeWhile_cons, List.dropWhile_cons, ha.1, this.1, this.2]

lemma digit_not_sign {c : Char} (h : c.isDigit = true) : ¬c = '-' ∧ ¬c = '+' := by
  constructor <;> intro he <;> rw [he] at h <;> exact absurd h (by decide)

lemma pyFloat_wf {g : List Char} (h : WfNum g) :
    pyFloat (String.mk g) = some (ratNum g) := by
  rcases h with ⟨a, b, ha, hb, had, hbd, rfl⟩
  obtain ⟨c, a', rfl⟩ := List.exists_cons_of_ne_nil ha
  have hcd : c.isDigit = true := by
    simp only [List.all_cons, Bool.and_eq_true] at had
    exact had.1
  have hTD := all_takeWhile_append (p := Char.isDigit) (x := '.') (b := b) had (by decide)
  show (if c = '-' then (pyFloatCore (a' ++ '.' :: b)).map (fun q => -q)
        else if c = '+' then pyFloatCore (a' ++ '.' :: b)
        else pyFloatCore (c :: (a' ++ '.' :: b))) = some (ratNum ((c :: a') ++ '.' :: b))
  rw [if_neg (digit_not_sign hcd).1, if_neg (digit_not_sign hcd).2]
  have hcons : c :: (a' ++ '.' :: b) = (c :: a') ++ '.' :: b := rfl
  rw [hcons]
  unfold pyFloatCore ratNum
  rw [hTD.1, hTD.2]
  have hne : ¬('.' :: b = ([] : List Char)) := by simp
  rw [if_neg hne]
  have hhead : ('.' :: b).head? = some '.' := rfl
  rw [if_pos hhead]
  have hcond : (('.' :: b).tail.all Char.isDigit &&
      !(decide ((c :: a') = []) && decide (('.' :: b).tail = []))) = true := by
    simp [hbd]
  rw [if_pos hcond]

lemma ratNum_nonneg (g : List Char) : 0 ≤ ratNum g := by
  unfold ratNum
  have h1 : (0 : ℚ) ≤ (digitsVal (g.takeWhile Char.isDigit) : ℚ) := by positivity
  have h2 : (0 : ℚ) ≤ (digitsVal ((g.dropWhile Char.isDigit).tail) : ℚ) /
      ((10 : ℚ) ^ ((g.dropWhile Char.isDigit).tail).length) := by positivity
  linarith

lemma pairVal_nonneg (caps : List (List Char)) :
    0 ≤ (pairVal caps).1 ∧ 0 ≤ (pairVal caps).2 := by
  unfold pairVal
  match caps with
  | [a, b] => exact ⟨ratNum_nonneg a, ratNum_nonneg b⟩
  | [] => exact ⟨le_refl 0, le_refl 0⟩
  | [_] => exact ⟨le_refl 0, le_refl 0⟩
  | _ :: _ :: _ :: _ => exact ⟨le_refl 0, le_refl 0⟩

lemma mapM_eq_map {α β : Type} {f : α → Option β} {g : α → β} :
    ∀ {M : List α}, (∀ x ∈ M, f x = some (g x)) → M.mapM f = some (M.map g) := by
  intro M
  induction M with
  | nil => intro _; rfl
  | cons x xs ih =>
    intro h
    rw [List.mapM_cons, h x (List.mem_cons_self x xs),
      ih (fun q hq => h q (List.mem_cons_of_mem x hq))]
    rfl

/-- The coordinate field of the parse equals the total per-match conversion
of every findall match, in order: the one `try` around the comprehension
never fires because `float()` succeeds on every matched substring. -/
lemma parsedCoordinates_eq (l : List Char) :
    parsedCoordinates l =
      if reFindAll coordRE l = [] then none
      else some ((reFindAll coordRE l).map pairVal) := by
  by_cases hM : reFindAll coordRE l = []
  · simp [parsedCoordinates, hM]
  · have hmm : (reFindAll coordRE l).mapM (fun caps =>
        match caps with
        | [a, b] => do
          let x ← pyFloat (String.mk a)
          let y ← pyFloat (String.mk b)
          pure (x, y)
        | _ => none) = some ((reFindAll coordRE l).map pairVal) := by
      apply mapM_eq_map
      intro caps hcaps
      rcases reFindAll_mem hcaps with ⟨t, res, hres, rfl⟩
      rcases coordRE_caps hres with ⟨g₁, g₂, hcaps2, hw1, hw2⟩
      rw [hcaps2]
      simp [pyFloat_wf hw1, pyFloat_wf hw2, pairVal]
    simp only [parsedCoordinates, hmm, if_neg hM]

/-! ## Shape of date-pattern captures -/

lemma reRun_noGrp : ∀ r, noGrp r = true → ∀ s x, x ∈ reRun r s → x.2 = [] := by
  intro r
  induction r with
  | cls p => intro _ s x hx; exact (reRun_cls hx).1
  | lit l => intro _ s x hx; exact (reRun_lit hx).1
  | seq a b iha ihb =>
    intro hng s x hx
    rw [noGrp, Bool.and_eq_true] at hng
    rcases reRun_seq hx with ⟨y, hy, z, hz, hxz⟩
    rw [hxz]
    simp [iha hng.1 s y hy, ihb hng.2 y.1 z hz]
  | alt a b iha ihb =>
    intro hng s x hx
    rw [noGrp, Bool.and_eq_true] at hng
    rcases reRun_alt hx with h | h
    · exact iha hng.1 s x h
    · exact ihb hng.2 s x h
  | rep p lo hi => intro _ s x hx; exact (reRun_rep hx).1
  | grp a ih => intro hng; cases hng

lemma seq_leading_digits {lo : Nat} {hi : Option Nat} {rest : RE} {s : List Char}
    {y : List Char × List (List Char)} (hlo : 1 ≤ lo)
    (hy : y ∈ reRun (.seq (.rep isDigitC lo hi) rest) s) :
    ∃ c t, s = c :: t ∧ c.isDigit = true ∧ y.1.length < s.length := by
  rcases reRun_seq hy with ⟨w, hw, z, hz, hyz⟩
  rcases reRun_rep hw with ⟨hw2, k, hklo, hkch, hw1⟩
  have hk1 : 1 ≤ k := le_trans hlo hklo
  have hkle : k ≤ s.length := le_trans hkch (charRun_le _ s)
  cases s with
  | nil =>
    rw [show charRun isDigitC [] = 0 from rfl] at hkch
    omega
  | cons c t =>
    have hall := take_charRun_all hkch
    obtain ⟨k', rfl⟩ : ∃ k', k = k' + 1 := ⟨k - 1, by omega⟩
    rw [List.take_succ_cons] at hall
    simp only [List.all_cons, Bool.and_eq_true] at hall
    refine ⟨c, t, rfl, hall.1, ?_⟩
    have hz1 := reRun_length rest w.1 z hz
    rw [hw1] at hz1
    have hy1 : y.1.length = z.1.length := by rw [hyz]
    simp only [List.length_drop, List.length_cons] at hz1
    simp only [List.length_cons]
    omega

lemma dateBound_head {s : List Char} {y : List Char × List (List Char)}
    (hy : y ∈ reRun dateBoundRE s) :
    y.2 = [] ∧ ∃ c t, s = c :: t ∧ c.isDigit = true ∧ y.1.length < s.length := by
  have hcl : y.2 = [] := reRun_noGrp dateBoundRE rfl s y hy
  rcases reRun_alt hy with h | h
  · exact ⟨hcl, seq_leading_digits (by norm_num) h⟩
  · exact ⟨hcl, seq_leading_digits (by norm_num) h⟩

lemma grp_bound_caps {s : List Char} {x : List Char × List (List Char)}
    (hx : x ∈ reRun (.grp dateBoundRE) s) :
    ∃ g, x.2 = [g] ∧ HeadDigit g := by
  rcases reRun_grp hx with ⟨y, hy, hxy⟩
  rcases dateBound_head hy with ⟨hy2, c, t, hst, hc, hlen⟩
  subst hst
  obtain ⟨n, hn⟩ : ∃ n, (c :: t).length - y.1.length = n + 1 := by
    refine ⟨(c :: t).length - y.1.length - 1, ?_⟩
    simp only [List.length_cons] at hlen ⊢
    omega
  refine ⟨(c :: t).take ((c :: t).length - y.1.length), ?_, ?_⟩
  · rw [hxy, hy2]
  · rw [hn, List.take_succ_cons]
    exact ⟨c, _, rfl, hc⟩

lemma dateRE_caps {s : List Char} {x : List Char × List (List Char)}
    (hx : x ∈ reRun dateRE s) :
    ∃ g₁ g₂, x.2 = [g₁, g₂] ∧ HeadDigit g₁ ∧ HeadDigit g₂ := by
  rcases reRun_seq hx with ⟨w1, hw1, z1, hz1, hxz⟩
  have hw1c : w1.2 = [] := by
    rcases reRun_alt hw1 with h | h
    · exact (reRun_lit h).1
    · exact (reRun_lit h).1
  rcases reRun_seq hz1 with ⟨w2, hw2, z2, hz2, hz1z⟩
  have hw2c := (reRun_rep hw2).1
  rcases reRun_seq hz2 with ⟨w3, hw3, z3, hz3, hz2z⟩
  rcases grp_bound_caps hw3 with ⟨g₁, hw3c, hg₁⟩
  rcases reRun_seq hz3 with ⟨w4, hw4, z4, hz4, hz3z⟩
  have hw4c := (reRun_rep hw4).1
  rcases reRun_seq hz4 with ⟨w5, hw5, z5, hz5, hz4z⟩
  have hw5c : w5.2 = [] := by
    rcases reRun_alt hw5 with h | h
    · exact (reRun_lit h).1
    · exact (reRun_lit h).1
  rcases reRun_seq hz5 with ⟨w6, hw6, z6, hz6, hz5z⟩
  have hw6c := (reRun_rep hw6).1
  rcases grp_bound_caps hz6 with ⟨g₂, hz6c, hg₂⟩
  refine ⟨g₁, g₂, ?_, hg₁, hg₂⟩
  rw [hxz, hz1z, hz2z, hz3z, hz4z, hz5z]
  simp [hw1c, hw2c, hw3c, hw4c, hw5c, hw6c, hz6c]

/-! ## Year-independence of the reachable date parsing -/

lemma parse_date_string_year_indep {g : List Char} (h : HeadDigit g) (y₁ y₂ : Nat) :
    parse_date_string y₁ (String.mk g) = parse_date_string y₂ (String.mk g) := by
  rcases h with ⟨c, t, rfl, hc⟩
  have hne : ¬((String.mk (c :: t)).toList = []) := by simp
  have hdig : (((String.mk (c :: t)).toList.take 4).any Char.isDigit) = true := by
    show (((c :: t).take 4).any Char.isDigit) = true
    simp [List.take_succ_cons, List.any_cons, hc]
  have hgd : ¬(((String.mk (c :: t)).toList.take 4).any Char.isDigit = false) := by
    rw [hdig]
    simp
  simp only [parse_date_string]
  rw [if_neg hne, if_neg hne, if_neg hgd, if_neg hgd]

lemma parsedDateRange_year_indep (y₁ y₂ : Nat) (l : List Char) :
    parsedDateRange y₁ l = parsedDateRange y₂ l := by
  rcases hsearch : reSearch dateRE l with _ | ⟨rest, caps⟩
  · simp [parsedDateRange, hsearch]
  · rcases reSearch_mem hsearch with ⟨t, hmem⟩
    rcases dateRE_caps hmem with ⟨g₁, g₂, hcaps, hg₁, hg₂⟩
    simp only at hcaps
    subst hcaps
    simp only [parsedDateRange, hsearch]
    rw [parse_date_string_year_indep hg₁ y₁ y₂, parse_date_string_year_indep hg₂ y₁ y₂]

lemma parse_user_input_year_indep (y₁ y₂ : Nat) (input : Option String) :
    parse_user_input y₁ input = parse_user_input y₂ input := by
  cases input with
  | none => rfl
  | some s =>
    simp only [parse_user_input]
    by_cases hl : pyStrip s.toList = []
    · rw [if_pos hl, if_pos hl]
    · rw [if_neg hl, if_neg hl, parsedDateRange_year_indep y₁ y₂]

/-! ## Truthiness of parsed dates -/

lemma fmtDate_ne_empty (y m d : Nat) : fmtDate y m d ≠ "" := by
  intro h
  have hlen := congrArg String.length h
  have h1 : ("-" : String).length = 1 := rfl
  have h0 : ("" : String).length = 0 := rfl
  simp only [fmtDate, String.length_append, h1, h0] at hlen
  omega

lemma parse_date_string_ne_empty {y : Nat} {s d : String}
    (h : parse_date_string y s = some d) : d ≠ "" := by
  unfold parse_date_string at h
  dsimp only at h
  split at h
  · cases h
  · split at h
    · split at h
      · injection h with h
        rw [← h]
        exact fmtDate_ne_empty _ _ _
      · cases h
    · split at h
      · injection h with h
        rw [← h]
        exact fmtDate_ne_empty _ _ _
      · cases h

/-! ## Concrete evaluations shared by several theorems -/

lemma coords_example_eval (y : Nat) :
    (parse_user_input y (some "31.5204,74.3587 and 33.6,73.0")).coordinates =
      some [(31.5204, 74.3587), (33.6, 73.0)] := by
  show parsedCoordinates (pyStrip "31.5204,74.3587 and 33.6,73.0".toList) = _
  rw [parsedCoordinates_eq]
  rw [show reFindAll coordRE (pyStrip "31.5204,74.3587 and 33.6,73.0".toList) =
      [["31.5204".toList, "74.3587".toList], ["33.6".toList, "73.0".toList]] from rfl]
  rw [if_neg (by simp)]
  simp only [List.map, pairVal]
  have e1 : ratNum "31.5204".toList = ((31 : ℕ) : ℚ) + ((5204 : ℕ) : ℚ) / (10 : ℚ) ^ (4 : ℕ) := rfl
  have e2 : ratNum "74.3587".toList = ((74 : ℕ) : ℚ) + ((3587 : ℕ) : ℚ) / (10 : ℚ) ^ (4 : ℕ) := rfl
  have e3 : ratNum "33.6".toList = ((33 : ℕ) : ℚ) + ((6 : ℕ) : ℚ) / (10 : ℚ) ^ (1 : ℕ) := rfl
  have e4 : ratNum "73.0".toList = ((73 : ℕ) : ℚ) + ((0 : ℕ) : ℚ) / (10 : ℚ) ^ (1 : ℕ) := rfl
  rw [e1, e2, e3, e4]
  norm_num

lemma coords_signed_eval (y : Nat) :
    (parse_user_input y (some "-31.5,74.3")).coordinates = some [(31.5, 74.3)] := by
  show parsedCoordinates (pyStrip "-31.5,74.3".toList) = _
  rw [parsedCoordinates_eq]
  rw [show reFindAll coordRE (pyStrip "-31.5,74.3".toList) =
      [["31.5".toList, "74.3".toList]] from rfl]
  rw [if_neg (by simp)]
  simp only [List.map, pairVal]
  have e1 : ratNum "31.5".toList = ((31 : ℕ) : ℚ) + ((5 : ℕ) : ℚ) / (10 : ℚ) ^ (1 : ℕ) := rfl
  have e2 : ratNum "74.3".toList = ((74 : ℕ) : ℚ) + ((3 : ℕ) : ℚ) / (10 : ℚ) ^ (1 : ℕ) := rfl
  rw [e1, e2]
  norm_num

/-- C5: coordinate extraction — the worked example yields exactly the two
pairs in order of appearance, and in general the extraction equals the
total conversion of every findall match in match order: `float()` succeeds
on every matched `\d+\.\d+` substring, so the single `try` around the
comprehension never aborts any other match's conversion. -/
theorem C5_coordinate_extraction :
    (∀ y : Nat, (parse_user_input y (some "31.5204,74.3587 and 33.6,73.0")).coordinates =
        some [(31.5204, 74.3587), (33.6, 73.0)]) ∧
    (∀ (y : Nat) (s : String),
        (parse_user_input y (some s)).coordinates =
          if reFindAll coordRE (pyStrip s.toList) = [] then none
          else some ((reFindAll coordRE (pyStrip s.toList)).map pairVal)) := by
  refine ⟨coords_example_eval, ?_⟩
  intro y s
  by_cases hl : pyStrip s.toList = []
  · have hc : (parse_user_input y (some s)).coordinates = none := by
      simp [parse_user_input, String.toList, defaultIntent, show pyStrip s.data = [] from hl]
    rw [hc, hl]
    rw [show reFindAll coordRE [] = [] from rfl]
    simp
  · have hc : (parse_user_input y (some s)).coordinates =
        parsedCoordinates (pyStrip s.toList) := by
      simp [parse_user_input, String.toList, show ¬pyStrip s.data = [] from hl]
    rw [hc, parsedCoordinates_eq]

/-- Counterexample to C10 as stated: the signed coordinate text
`"-31.5,74.3"` *does* contribute a pair — the match starts after the minus
sign, so the pair (31.5, 74.3) is extracted with the sign silently
dropped. -/
theorem C10_signed_pair_counterexample :
    (parse_user_input 2026 (some "-31.5,74.3")).coordinates = some [(31.5, 74.3)] ∧
    some [((31.5 : ℚ), (74.3 : ℚ))] ≠ (none : Option (List (ℚ × ℚ))) :=
  ⟨coords_signed_eval 2026, by simp⟩

/-- C10 (amended): every extracted pair is non-negative with an explicit
fractional part (the pattern matches only unsigned `\d+\.\d+` literals),
and integer-styled coordinates contribute no pair; but a signed coordinate
text still contributes the pair of its unsigned parts, the sign being
outside the match. -/
theorem C10_unsigned_nonneg_extraction :
    (∀ (y : Nat) (s : String) (ps : List (ℚ × ℚ)),
        (parse_user_input y (some s)).coordinates = some ps →
        ∀ pr ∈ ps, 0 ≤ pr.1 ∧ 0 ≤ pr.2) ∧
    (∀ y : Nat, (parse_user_input y (some "31, 74")).coordinates = none) ∧
    (∀ y : Nat, (parse_user_input y (some "-31.5,74.3")).coordinates =
        some [(31.5, 74.3)]) := by
  refine ⟨?_, fun y => rfl, coords_signed_eval⟩
  intro y s ps h pr hpr
  by_cases hl : pyStrip s.toList = []
  · have hc : (parse_user_input y (some s)).coordinates = none := by
      simp [parse_user_input, String.toList, defaultIntent, show pyStrip s.data = [] from hl]
    rw [hc] at h
    cases h
  · have hc : (parse_user_input y (some s)).coordinates =
        parsedCoordinates (pyStrip s.toList) := by
      simp [parse_user_input, String.toList, show ¬pyStrip s.data = [] from hl]
    rw [hc, parsedCoordinates_eq] at h
    by_cases hM : reFindAll coordRE (pyStrip s.toList) = []
    · rw [if_pos hM] at h
      cases h
    · rw [if_neg hM] at h
      injection h with h
      rw [← h] at hpr
      rcases List.mem_map.mp hpr with ⟨caps, _, hpv⟩
      rw [← hpv]
      exact pairVal_nonneg caps

/-- Witness for C10 (amended): the non-negativity bound instantiated on the
pair extracted from the signed text. -/
theorem C10_unsigned_nonneg_extraction_witness :
    0 ≤ ((31.5 : ℚ), (74.3 : ℚ)).1 ∧ 0 ≤ ((31.5 : ℚ), (74.3 : ℚ)).2 :=
  C10_unsigned_nonneg_extraction.1 2026 "-31.5,74.3" [(31.5, 74.3)]
    (coords_signed_eval 2026) (31.5, 74.3) (by simp)

/-- C9: the Intent Parser is stateless and hence idempotent — its result is
a function of the input text alone.  The ambient state is made explicit as
the current year (the only process state the source can read, through the
month-name branch of `_parse_date_string`); the result never depends on it,
because every captured date bound starts with a digit and therefore takes
the year-independent ISO branch.  Two calls, even across a year change,
return identical `ParsedIntent` records, and the default-empty sequences
are rebuilt per call. -/
theorem C9_parser_stateless_idempotent :
    ∀ (y₁ y₂ : Nat) (input : Option String),
      parse_user_input y₁ input = parse_user_input y₂ input :=
  fun y₁ y₂ input => parse_user_input_year_indep y₁ y₂ input

/-- C7: date-range extraction is all-or-nothing.  The two worked examples;
then: a populated `date_range` arises only when the search matched and both
bounds parsed (never a partial range), and conversely when both bounds of
the matched phrase parse, the range is exactly that pair. -/
theorem C7_date_range_all_or_nothing :
    (∀ y : Nat, (parse_user_input y (some "from 2024-01-01 to 2024-03-01")).date_range =
        some ("2024-01-01", "2024-03-01")) ∧
    (∀ y : Nat, (parse_user_input y (some "from 31 Feb to 2024-03-01")).date_range = none) ∧
    (∀ (y : Nat) (s : String) (d₁ d₂ : String),
        (parse_user_input y (some s)).date_range = some (d₁, d₂) →
        ∃ rest g₁ g₂, reSearch dateRE (pyStrip s.toList) = some (rest, [g₁, g₂]) ∧
          parse_date_string y (String.mk g₁) = some d₁ ∧
          parse_date_string y (String.mk g₂) = some d₂) ∧
    (∀ (y : Nat) (s : String) (rest g₁ g₂ : List Char) (d₁ d₂ : String),
        reSearch dateRE (pyStrip s.toList) = some (rest, [g₁, g₂]) →
        parse_date_string y (String.mk g₁) = some d₁ →
        parse_date_string y (String.mk g₂) = some d₂ →
        (parse_user_input y (some s)).date_range = some (d₁, d₂)) := by
  refine ⟨fun y => rfl, fun y => rfl, ?_, ?_⟩
  · intro y s d₁ d₂ h
    by_cases hl : pyStrip s.toList = []
    · have hc : (parse_user_input y (some s)).date_range = none := by
        simp [parse_user_input, String.toList, defaultIntent, show pyStrip s.data = [] from hl]
      rw [hc] at h
      cases h
    · have hc : (parse_user_input y (some s)).date_range =
          parsedDateRange y (pyStrip s.toList) := by
        simp [parse_user_input, String.toList, show ¬pyStrip s.data = [] from hl]
      rw [hc] at h
      rcases hsearch : reSearch dateRE (pyStrip s.toList) with _ | ⟨rest, caps⟩
      · simp only [parsedDateRange, hsearch] at h
        cases h
      · rcases reSearch_mem hsearch with ⟨t, hmem⟩
        rcases dateRE_caps hmem with ⟨g₁, g₂, hcaps, hg₁, hg₂⟩
        simp only at hcaps
        subst hcaps
        simp only [parsedDateRange, hsearch] at h
        rcases hp1 : parse_date_string y (String.mk g₁) with _ | sd
        · simp only [hp1] at h
          cases h
        · rcases hp2 : parse_date_string y (String.mk g₂) with _ | ed
          · simp only [hp1, hp2] at h
            cases h
          · simp only [hp1, hp2] at h
            split at h
            · cases h
            · obtain ⟨rfl, rfl⟩ : sd = d₁ ∧ ed = d₂ := by
                have hpe := Option.some.inj h
                exact ⟨congrArg Prod.fst hpe, congrArg Prod.snd hpe⟩
              exact ⟨rest, g₁, g₂, rfl, hp1, hp2⟩
  · intro y s rest g₁ g₂ d₁ d₂ hsearch hp1 hp2
    by_cases hl : pyStrip s.toList = []
    · rw [hl] at hsearch
      rw [show reSearch dateRE [] = none from rfl] at hsearch
      cases hsearch
    · have hc : (parse_user_input y (some s)).date_range =
          parsedDateRange y (pyStrip s.toList) := by
        simp [parse_user_input, String.toList, show ¬pyStrip s.data = [] from hl]
      rw [hc]
      simp only [parsedDateRange, hsearch, hp1, hp2]
      simp [parse_date_string_ne_empty hp1, parse_date_string_ne_empty hp2]

/-- Witness for C7: the both-bounds-parse direction applied at the concrete
phrase `"from 2024-01-01 to 2024-03-01"`. -/
theorem C7_date_range_all_or_nothing_witness :
    (parse_user_input 2026 (some "from 2024-01-01 to 2024-03-01")).date_range =
      some ("2024-01-01", "2024-03-01") :=
  C7_date_range_all_or_nothing.2.2.2 2026 "from 2024-01-01 to 2024-03-01" []
    "2024-01-01".toList "2024-03-01".toList "2024-01-01" "2024-03-01" rfl rfl rfl

end GisAgent
